import Mathlib

/-!
Shallow embedding of the payments ledger (`src/lib.rs`, module `payments`).

Modelling conventions:
* `HashMap<String, T>` is modelled as `List (String × T)` (association list,
  first match wins on lookup; `insert` replaces in place or appends);
  `HashSet<String>` as `List String` with idempotent insertion.
* `f32` amounts are modelled as exact rationals `ℚ`; `i32` as unbounded `ℤ`
  (overflow/saturation of `as i32` and binary-float rounding of decimal
  literals are idealized away; no claim depends on them).
* A Rust code path that can panic (`unwrap`, out-of-bounds slice) is modelled
  by `Option`, with `none` meaning the Rust program panics.
* File I/O is abstracted by an `Fs` record mapping file names to parsed
  transport documents (for `load`) and to create-success (for `save`).
-/

namespace Payments

/-- `HashMap::insert`: replace the value at an existing key, else add the entry. -/
def insertMap {α : Type} (k : String) (v : α) (m : List (String × α)) : List (String × α) :=
  if (List.lookup k m).isSome then
    m.map (fun kv => if kv.1 = k then (k, v) else kv)
  else m ++ [(k, v)]

/-- `HashSet::insert` on a set of strings. -/
def insertSet (x : String) (s : List String) : List String :=
  if x ∈ s then s else s ++ [x]

/-- Floor of a rational, computed on numerator and denominator. -/
def ratFloor (q : ℚ) : ℤ := q.num.fdiv q.den

/-- `f32::round`: round to the nearest integer, halves away from zero. -/
def rustRound (q : ℚ) : ℤ :=
  if 0 ≤ q then ratFloor (q + 1/2) else -ratFloor (-q + 1/2)

/-- `as i32` on a float value: truncation toward zero. -/
def truncQ (q : ℚ) : ℤ := q.num.tdiv (q.den : ℤ)

/-- Value of a list of decimal digit characters. -/
def digitsToNat (ds : List Char) : ℕ :=
  ds.foldl (fun n c => 10 * n + (c.toNat - Char.toNat '0')) 0

/-- Models `str::parse::<f32>` on plain decimal numerals: optional sign,
digits, optional fractional part, at least one digit overall; the value is
sign · (intPart + frac / 10^|frac|), assembled here as one integer fraction.
The exponent and `inf`/`NaN` forms accepted by Rust are not modelled (no
claim uses them), and the parsed value is exact rather than rounded to
binary `f32`. -/
def parseDecimal (s : String) : Option ℚ :=
  let signed : ℤ × List Char :=
    match s.data with
    | '-' :: r => (-1, r)
    | '+' :: r => (1, r)
    | r => (1, r)
  let sign := signed.1
  let body := signed.2
  let intPart := body.takeWhile Char.isDigit
  let rest := body.dropWhile Char.isDigit
  match rest with
  | [] => if intPart = [] then none else some (Rat.divInt (sign * digitsToNat intPart) 1)
  | '.' :: frac =>
    if frac.all Char.isDigit ∧ (intPart ≠ [] ∨ frac ≠ []) then
      some (Rat.divInt
        (sign * (digitsToNat intPart * 10 ^ frac.length + digitsToNat frac))
        (10 ^ frac.length))
    else none
  | _ => none

/-- `struct Task` (`lib.rs` lines 155–162). -/
structure Task where
  name : String
  owner : String
  participants : List String
  cost : ℤ
deriving DecidableEq, Repr

/-- `struct Participant` (`lib.rs` lines 12–20).  The `tasks` map holds
`Task` values: `part` and the transport conversion insert *clones* of the
central task (`task.clone()` on a `&RefCell<Task>` clones the inner `Task`),
so these are snapshot copies, not live references. -/
structure Participant where
  name : String
  tasks : List (String × Task)
  paid_tasks : List String
  payments_made : List ℤ
  sum : Option ℚ
deriving DecidableEq, Repr

/-- `struct Payment` (`lib.rs` lines 212–217): the store. -/
structure Payment where
  participants : List (String × Participant)
  tasks : List (String × Task)
deriving DecidableEq, Repr

/-- `struct TransportParticipant` (`lib.rs` lines 243–250);
`payments_made` is `Option<Vec<i32>>`, `none` models an absent field. -/
structure TransportParticipant where
  name : String
  tasks : List String
  paid_tasks : List String
  payments_made : Option (List ℤ)
deriving DecidableEq, Repr

/-- `struct TransportTask` (`lib.rs` lines 275–282). -/
structure TransportTask where
  name : String
  owner : String
  participants : List String
  cost : ℤ
deriving DecidableEq, Repr

/-- `struct TransportPayment` (`lib.rs` lines 303–308). -/
structure TransportPayment where
  participants : List (String × TransportParticipant)
  tasks : List (String × TransportTask)
deriving DecidableEq, Repr

/-- Abstraction of the file system seen by `load`/`save`.
`read f = none`: `File::open` fails; `read f = some none`: the file opens but
deserialization fails; `read f = some (some tp)`: the file parses to `tp`.
`write f`: whether `File::create` succeeds. -/
structure Fs where
  read : String → Option (Option TransportPayment)
  write : String → Bool

/-- `PaymentResult = Result<(), String>`. -/
abbrev PaymentResult := Except String Unit

/-- `Participant::new` (`lib.rs` lines 24–34). -/
def Participant.new (name : String) : Participant :=
  { name := name, tasks := [], paid_tasks := [], payments_made := [], sum := none }

/-- `Payment::new` (`lib.rs` lines 336–342). -/
def Payment.new : Payment := { participants := [], tasks := [] }

/-- `impl From<&TransportTask> for Task` (`lib.rs` lines 164–181). -/
def Task.fromTransport (tt : TransportTask) : Task :=
  { name := tt.name
  , owner := tt.owner
  , participants := tt.participants.foldl (fun s x => insertSet x s) []
  , cost := tt.cost }

/-- `impl From<&RefCell<Task>> for TransportTask` (`lib.rs` lines 284–301). -/
def Task.toTransport (t : Task) : TransportTask :=
  { name := t.name
  , owner := t.owner
  , participants := t.participants.foldl (fun v x => v ++ [x]) []
  , cost := t.cost }

/-- `impl From<&TransportParticipant> for Participant` (`lib.rs` lines 130–152).
The `tasks` map is left empty here; `From<&TransportPayment>` fills it in. -/
def Participant.fromTransport (tp : TransportParticipant) : Participant :=
  { name := tp.name
  , tasks := []
  , paid_tasks := tp.paid_tasks.foldl (fun s x => insertSet x s) []
  , payments_made := match tp.payments_made with
      | some pays => pays
      | none => []
  , sum := none }

/-- `impl From<&Participant> for TransportParticipant` (`lib.rs` lines 252–273). -/
def Participant.toTransport (p : Participant) : TransportParticipant :=
  { name := p.name
  , tasks := p.tasks.foldl (fun v kt => v ++ [kt.1]) []
  , paid_tasks := p.paid_tasks.foldl (fun v x => v ++ [x]) []
  , payments_made := some p.payments_made }

/-- The per-participant body of `From<&TransportPayment>` (`lib.rs` lines 228–237):
build the participant, then re-attach, for each task name it lists, a clone of
the corresponding central task.  `ret.tasks.get (task).unwrap ()` panics
(`none`) when the task name is absent from the central task map. -/
def rebuildParticipant (tasks : List (String × Task)) (tp : TransportParticipant) :
    Option Participant :=
  match tp.tasks.foldlM (fun pm tn => (List.lookup tn tasks).map (fun t => insertMap tn t pm)) [] with
  | none => none
  | some ptasks => some { Participant.fromTransport tp with tasks := ptasks }

/-- `impl From<&TransportPayment> for Payment` (`lib.rs` lines 219–241). -/
def Payment.fromTransport (tp : TransportPayment) : Option Payment :=
  let tasks := tp.tasks.foldl (fun m nt => insertMap nt.1 (Task.fromTransport nt.2) m) []
  match tp.participants.foldlM
      (fun m np => (rebuildParticipant tasks np.2).map (fun part => insertMap np.1 part m)) [] with
  | none => none
  | some participants => some { participants := participants, tasks := tasks }

/-- `impl From<&Payment> for TransportPayment` (`lib.rs` lines 310–331). -/
def Payment.toTransport (p : Payment) : TransportPayment :=
  { participants := p.participants.foldl
      (fun m np => insertMap np.1 (Participant.toTransport np.2) m) []
  , tasks := p.tasks.foldl (fun m nt => insertMap nt.1 (Task.toTransport nt.2) m) [] }

/-- `Participant::calculate` (`lib.rs` lines 36–58).  The middle loop looks
each paid task up in the participant's own task map and `unwrap`s, so a paid
task missing from that map panics (`none`). -/
def Participant.calculate (p : Participant) : Option Participant :=
  let s1 : ℚ := p.tasks.foldl
    (fun acc kt => acc + (kt.2.cost : ℚ) / (kt.2.participants.length : ℚ)) 0
  match p.paid_tasks.foldlM
      (fun acc n => (List.lookup n p.tasks).map (fun t => acc - (t.cost : ℚ))) s1 with
  | none => none
  | some s2 =>
    let s3 := p.payments_made.foldl (fun (acc : ℚ) (a : ℤ) => acc - (a : ℚ)) s2
    some { p with sum := some ((rustRound s3 : ℚ) / 100) }

/-- `Payment::calculate` (`lib.rs` lines 566–592): recompute every participant. -/
def Payment.calculateAll (p : Payment) : Option Payment :=
  match p.participants.mapM (fun np => (np.2.calculate).map (fun q => (np.1, q))) with
  | none => none
  | some l => some { p with participants := l }

/-- `Payment::print` (`lib.rs` lines 634–675).  Its only effect on the store is
the initial `self.calculate ()`; everything else is console output. -/
def Payment.print (p : Payment) (_args : List String) : Option Payment :=
  p.calculateAll

/-- `Payment::append_err` (`lib.rs` lines 677–688). -/
def append_err (res : PaymentResult) (possible_msg : Option String) : PaymentResult :=
  match possible_msg with
  | none => res
  | some msg =>
    match res with
    | .error e => .error (e ++ "\n" ++ msg)
    | .ok _ => .error msg

/-- `.err ()` on a `Result<(), String>`. -/
def errOf (r : PaymentResult) : Option String :=
  match r with
  | .error e => some e
  | .ok _ => none

/-- `Payment::verify_name` (`lib.rs` lines 725–744). -/
def Payment.verify_name (p : Payment) (arg : String) : PaymentResult :=
  if arg = "" then .error "Not enough arguments"
  else if arg = "-a" ∨ arg = "all" then .error ("invalid name " ++ arg)
  else if (List.lookup arg p.participants).isSome then
    .error ("A participant named " ++ arg ++ " exists")
  else if (List.lookup arg p.tasks).isSome then
    .error ("A task named " ++ arg ++ " exists")
  else .ok ()

/-- `Payment::add` (`lib.rs` lines 691–723).  Note: the participant is
inserted whether or not `verify_name` reported an error. -/
def Payment.add (p : Payment) (args : List String) : Payment × PaymentResult :=
  if args.isEmpty then (p, .error "Not enough arguments")
  else args.foldl
    (fun acc arg =>
      let res := append_err acc.2 (errOf (acc.1.verify_name arg))
      ({ acc.1 with participants := insertMap arg (Participant.new arg) acc.1.participants }, res))
    (p, .ok ())

/-- `Payment::verify_part` (`lib.rs` lines 885–898), on a participant map. -/
def verify_partM (m : List (String × Participant)) (arg : Option String) :
    Except String (String × Participant) :=
  match arg with
  | none => .error "Not enough arguments"
  | some n =>
    if n = "" then .error "Not enough arguments"
    else
      match List.lookup n m with
      | none => .error ("Participant " ++ n ++ " has not yet been added")
      | some part => .ok (n, part)

/-- `Payment::verify_part` (`lib.rs` lines 885–898). -/
def Payment.verify_part (p : Payment) (arg : Option String) :
    Except String (String × Participant) :=
  verify_partM p.participants arg

/-- `Payment::verify_task` (`lib.rs` lines 900–913). -/
def Payment.verify_task (p : Payment) (arg : Option String) :
    Except String (String × Task) :=
  match arg with
  | none => .error "Not enough arguments"
  | some n =>
    if n = "" then .error "Not enough arguments"
    else
      match List.lookup n p.tasks with
      | none => .error ("Task " ++ n ++ " has not yet been added")
      | some t => .ok (n, t)

/-- `Payment::verify_amount` (`lib.rs` lines 915–930). -/
def Payment.verify_amount (arg : Option String) : Except String ℤ :=
  match arg with
  | none => .error "Not enough arguments"
  | some s =>
    if s = "" then .error "Not enough arguments"
    else
      match parseDecimal s with
      | some q => .ok (truncQ (q * 100))
      | none => .error (s ++ " not a valid decimal number for the price")

/-- `Payment::payment` (`lib.rs` lines 877–883): two arguments, a payer and an
amount; the parsed amount is pushed onto the payer's `payments_made`. -/
def Payment.payment (p : Payment) (args : List String) : Payment × PaymentResult :=
  match p.verify_part args[0]? with
  | .error e => (p, .error e)
  | .ok (n, part) =>
    match Payment.verify_amount args[1]? with
    | .error e => (p, .error e)
    | .ok amount =>
      ({ p with participants :=
          insertMap n { part with payments_made := part.payments_made ++ [amount] } p.participants }
      , .ok ())

/-- The loop of `Payment::part` (`lib.rs` lines 840–858).  For each named
participant: reset their cached sum, insert a *clone* of the central task as it
currently stands (taken before this participant's name is added to it), then
add the name to the central task's participant set. -/
def partLoop (parts : List (String × Participant)) (t : Task) (args : List String)
    (res : PaymentResult) : List (String × Participant) × Task × PaymentResult :=
  match args with
  | [] => (parts, t, res)
  | arg :: rest =>
    match verify_partM parts (some arg) with
    | .error e => partLoop parts t rest (append_err res (some e))
    | .ok (n, part) =>
      let part' := { part with sum := none, tasks := insertMap t.name t part.tasks }
      let t' := { t with participants := insertSet arg t.participants }
      partLoop (insertMap n part' parts) t' rest res

/-- `Payment::part` (`lib.rs` lines 826–860). -/
def Payment.part (p : Payment) (args : List String) : Payment × PaymentResult :=
  if args.length ≤ 1 then (p, .error "Not enough arguments")
  else if args[0]? = some "all" ∧ args[1]? = some "all" then
    (p, .error "Not implemented yet")
  else
    match p.verify_task args[0]? with
    | .error e => (p, .error e)
    | .ok (tn, t0) =>
      let r := partLoop p.participants t0 (args.drop 1) (.ok ())
      ({ participants := r.1, tasks := insertMap tn r.2.1 p.tasks }, r.2.2)

/-- `Payment::save` / `save_file` / `save_string` (`lib.rs` lines 392–428).
With a path, success depends on `File::create`; with no path the document is
printed to the console and the store is unchanged either way. -/
def Payment.save (_p : Payment) (fs : Fs) (args : List String) : PaymentResult :=
  match args[0]? with
  | some f => if fs.write f then .ok () else .error ("Unable to open file " ++ f)
  | none => .ok ()

/-- `Payment::load` (`lib.rs` lines 368–389).  On success the whole store is
replaced; the conversion from the transport form can panic (`none`). -/
def Payment.load (p : Payment) (fs : Fs) (args : List String) :
    Option (Payment × PaymentResult) :=
  match args[0]? with
  | none => some (p, .error "Not enough arguments")
  | some f =>
    match fs.read f with
    | none => some (p, .error ("Unable to open file " ++ f))
    | some none => some (p, .error "Error deserializing file")
    | some (some tp) =>
      match Payment.fromTransport tp with
      | none => none
      | some q => some (q, .ok ())

/-- Worker for `splitWS`: `Regex::new (r"\s+").split` semantics.  A maximal
run of whitespace separates two fields; leading or trailing whitespace
produces an empty leading or trailing field; the empty string gives `[""]`.
The second argument is `some acc` while accumulating a field and `none`
while skipping the interior of a whitespace run. -/
def splitWSAux : List Char → Option (List Char) → List String
  | [], some acc => [String.mk acc]
  | [], none => [""]
  | c :: rest, some acc =>
    if c.isWhitespace then String.mk acc :: splitWSAux rest none
    else splitWSAux rest (some (acc ++ [c]))
  | c :: rest, none =>
    if c.isWhitespace then splitWSAux rest none
    else splitWSAux rest (some [c])

/-- `Regex::new (r"\s+").split (com)` (`lib.rs` lines 346–349). -/
def splitWS (s : String) : List String := splitWSAux s.data (some [])

/-- The dispatch performed by `Payment::command` after tokenizing (`lib.rs`
lines 351–364).  `pay`, `rename` and `remove` are commented out in the source
and fall through to the catch-all arm. -/
def Payment.dispatch (p : Payment) (fs : Fs) (verb : String) (args : List String) :
    Option (Payment × PaymentResult) :=
  if verb = "add" then some (p.add args)
  else if verb = "part" then some (p.part args)
  else if verb = "payment" then some (p.payment args)
  else if verb = "print" then (p.print args).map (fun q => (q, .ok ()))
  else if verb = "save" then some (p, p.save fs args)
  else if verb = "load" then p.load fs args
  else some (p, .error (verb ++ " is not recognized as a command"))

/-- `Payment::command` (`lib.rs` lines 344–366).  The argument slice is
`&parts[1..parts.len () - 1]`: the final token is dropped, and when the split
yields a single token the slice bounds are `1..0`, which panics (`none`). -/
def Payment.command (p : Payment) (fs : Fs) (com : String) :
    Option (Payment × PaymentResult) :=
  let parts := splitWS com
  if parts.length < 2 then none
  else
    let args := (parts.drop 1).dropLast
    match parts[0]? with
    | none => some (p, .error "syntax error")
    | some verb => Payment.dispatch p fs verb args

/-! ### Lemmas about the association-list model -/

theorem lookup_cons {β : Type} (a k : String) (b : β) (l : List (String × β)) :
    List.lookup a ((k, b) :: l) = if k = a then some b else List.lookup a l := by
  rcases eq_or_ne k a with h | h
  · subst h
    simp [List.lookup_cons]
  · have hb : (a == k) = false := beq_eq_false_iff_ne.mpr (Ne.symm h)
    simp [List.lookup_cons, hb, if_neg h]

theorem lookup_map_replace_ne {β : Type} (k k' : String) (v : β) (m : List (String × β))
    (h : k' ≠ k) :
    List.lookup k' (m.map (fun kv => if kv.1 = k then (k, v) else kv)) = List.lookup k' m := by
  induction m with
  | nil => rfl
  | cons kv rest ih =>
    rcases kv with ⟨a, b⟩
    by_cases ha : a = k
    · subst ha
      simp only [List.map_cons, if_pos rfl]
      rw [lookup_cons, lookup_cons, if_neg (fun hh => h hh.symm), if_neg (fun hh => h hh.symm)]
      exact ih
    · simp only [List.map_cons, if_neg ha]
      rw [lookup_cons, lookup_cons]
      by_cases hak : a = k'
      · simp [hak]
      · simp [hak, ih]

theorem lookup_map_replace_self {β : Type} (k : String) (v : β) (m : List (String × β)) :
    List.lookup k (m.map (fun kv => if kv.1 = k then (k, v) else kv)) =
      if (List.lookup k m).isSome then some v else none := by
  induction m with
  | nil => rfl
  | cons kv rest ih =>
    rcases kv with ⟨a, b⟩
    by_cases ha : a = k
    · subst ha
      simp [lookup_cons]
    · simp only [List.map_cons, if_neg ha]
      rw [lookup_cons, if_neg ha, lookup_cons, if_neg ha]
      exact ih

theorem lookup_append {β : Type} (k : String) (m₁ m₂ : List (String × β)) :
    List.lookup k (m₁ ++ m₂) =
      match List.lookup k m₁ with
      | some v => some v
      | none => List.lookup k m₂ := by
  induction m₁ with
  | nil => rfl
  | cons kv rest ih =>
    rcases kv with ⟨a, b⟩
    by_cases h : a = k
    · simp [lookup_cons, h]
    · simp only [List.cons_append]
      rw [lookup_cons, if_neg h, lookup_cons, if_neg h, ih]

theorem insertMap_of_lookup_none {β : Type} (k : String) (v : β) (m : List (String × β))
    (h : List.lookup k m = none) :
    insertMap k v m = m ++ [(k, v)] := by
  unfold insertMap
  rw [h]
  rfl

theorem lookup_insertMap {β : Type} (k k' : String) (v : β) (m : List (String × β)) :
    List.lookup k' (insertMap k v m) = if k' = k then some v else List.lookup k' m := by
  by_cases h : (List.lookup k m).isSome
  · unfold insertMap
    rw [if_pos h]
    by_cases hk : k' = k
    · subst hk
      rw [lookup_map_replace_self, if_pos h, if_pos rfl]
    · rw [lookup_map_replace_ne _ _ _ _ hk, if_neg hk]
  · have hn : List.lookup k m = none := Option.not_isSome_iff_eq_none.mp h
    rw [insertMap_of_lookup_none _ _ _ hn, lookup_append]
    by_cases hk : k' = k
    · subst hk
      rw [hn]
      simp [lookup_cons]
    · have h2 : List.lookup k' [(k, v)] = none := by
        rw [lookup_cons, if_neg (fun hh => hk hh.symm)]
        rfl
      rw [h2, if_neg hk]
      cases List.lookup k' m <;> rfl

theorem lookup_isSome_iff {β : Type} (k : String) (m : List (String × β)) :
    (List.lookup k m).isSome = true ↔ k ∈ m.map Prod.fst := by
  induction m with
  | nil => simp [List.lookup]
  | cons kv rest ih =>
    rcases kv with ⟨a, b⟩
    rw [lookup_cons]
    by_cases h : a = k
    · subst h
      simp
    · have h2 : k ≠ a := fun hh => h hh.symm
      rw [if_neg h]
      simp [ih, h2]

theorem mem_insertSet (x y : String) (s : List String) :
    x ∈ insertSet y s ↔ x ∈ s ∨ x = y := by
  unfold insertSet
  by_cases h : y ∈ s
  · rw [if_pos h]
    constructor
    · exact fun hx => Or.inl hx
    · rintro (hx | rfl) <;> assumption
  · rw [if_neg h]
    simp

theorem mem_foldl_insertSet (x : String) :
    ∀ (l acc : List String), x ∈ l.foldl (fun s y => insertSet y s) acc ↔ x ∈ acc ∨ x ∈ l := by
  intro l
  induction l with
  | nil => simp
  | cons y l ih =>
    intro acc
    rw [List.foldl_cons, ih, mem_insertSet]
    simp
    tauto

theorem foldl_push_eq {α β : Type} (g : α → β) :
    ∀ (l : List α) (acc : List β), l.foldl (fun v x => v ++ [g x]) acc = acc ++ l.map g := by
  intro l
  induction l with
  | nil => simp
  | cons x l ih =>
    intro acc
    rw [List.foldl_cons, ih, List.map_cons]
    simp

theorem foldl_insertMap_eq {α β : Type} (key : α → String) (f : α → β) :
    ∀ (l : List α) (acc : List (String × β)),
      (l.map key).Nodup → (∀ x ∈ l, List.lookup (key x) acc = none) →
      l.foldl (fun m x => insertMap (key x) (f x) m) acc =
        acc ++ l.map (fun x => (key x, f x)) := by
  intro l
  induction l with
  | nil => simp
  | cons x l ih =>
    intro acc hnd hacc
    rw [List.map_cons, List.nodup_cons] at hnd
    rw [List.foldl_cons, insertMap_of_lookup_none _ _ _ (hacc x (List.mem_cons_self x l))]
    rw [ih (acc ++ [(key x, f x)]) hnd.2]
    · simp
    · intro y hy
      rw [lookup_append, hacc y (List.mem_cons_of_mem _ hy)]
      have : key y ≠ key x := by
        intro hh
        exact hnd.1 (hh ▸ List.mem_map_of_mem key hy)
      rw [lookup_cons, if_neg (fun hh => this hh.symm)]
      rfl

theorem lookup_map_value {β γ : Type} (g : β → γ) (k : String) (m : List (String × β)) :
    List.lookup k (m.map (fun kv => (kv.1, g kv.2))) = (List.lookup k m).map g := by
  induction m with
  | nil => rfl
  | cons kv rest ih =>
    rcases kv with ⟨a, b⟩
    simp only [List.map_cons]
    rw [lookup_cons, lookup_cons]
    by_cases h : a = k
    · simp [h]
    · simp [h, ih]

theorem foldlM_option_eq {α β σ : Type} (g : α → Option β) (h : σ → α → β → σ) (d : β) :
    ∀ (l : List α) (acc : σ), (∀ x ∈ l, (g x).isSome = true) →
      l.foldlM (fun m x => (g x).map (h m x)) acc =
        some (l.foldl (fun m x => h m x ((g x).getD d)) acc) := by
  intro l
  induction l with
  | nil => intro acc _; rfl
  | cons x l ih =>
    intro acc hall
    obtain ⟨b, hb⟩ := Option.isSome_iff_exists.mp (hall x (List.mem_cons_self x l))
    rw [List.foldlM_cons, List.foldl_cons, hb]
    simp only [Option.map_some', Option.some_bind, Option.getD_some]
    exact ih _ (fun y hy => hall y (List.mem_cons_of_mem _ hy))

theorem mapM_isSome {α β : Type} (f : α → Option β) :
    ∀ (l : List α), (∀ x ∈ l, (f x).isSome = true) → (l.mapM f).isSome = true := by
  intro l
  induction l with
  | nil => intro _; rfl
  | cons x l ih =>
    intro hall
    obtain ⟨b, hb⟩ := Option.isSome_iff_exists.mp (hall x (List.mem_cons_self x l))
    obtain ⟨bs, hbs⟩ := Option.isSome_iff_exists.mp (ih (fun y hy => hall y (List.mem_cons_of_mem _ hy)))
    rw [List.mapM_cons, hb, hbs]
    rfl

theorem foldl_add_eq {α : Type} (f : α → ℚ) :
    ∀ (l : List α) (a : ℚ), l.foldl (fun acc x => acc + f x) a = a + (l.map f).sum := by
  intro l
  induction l with
  | nil => simp
  | cons x l ih =>
    intro a
    rw [List.foldl_cons, ih, List.map_cons, List.sum_cons, add_assoc]

theorem foldl_sub_eq {α : Type} (f : α → ℚ) :
    ∀ (l : List α) (a : ℚ), l.foldl (fun acc x => acc - f x) a = a - (l.map f).sum := by
  intro l
  induction l with
  | nil => simp
  | cons x l ih =>
    intro a
    rw [List.foldl_cons, ih, List.map_cons, List.sum_cons, sub_sub]

/-! ### The balance formula (claim C1) -/

/-- Placeholder task used only to state `Option.getD`; never reached under the
hypotheses of the theorems below. -/
def dummyTask : Task := { name := "", owner := "", participants := [], cost := 0 }

/-- Σ over the participant's task map of cost / number of participants. -/
def shareSum (p : Participant) : ℚ :=
  (p.tasks.map (fun kt => (kt.2.cost : ℚ) / (kt.2.participants.length : ℚ))).sum

/-- The cost of a paid task, resolved through the participant's own task map
exactly as `Participant::calculate` does. -/
def paidCost (p : Participant) (n : String) : ℚ :=
  match List.lookup n p.tasks with
  | some t => (t.cost : ℚ)
  | none => 0

/-- Σ of the costs of the tasks the participant paid for. -/
def paidSum (p : Participant) : ℚ := (p.paid_tasks.map (paidCost p)).sum

/-- Σ of the participant's direct payments. -/
def paymentSum (p : Participant) : ℚ := (p.payments_made.map (fun (a : ℤ) => (a : ℚ))).sum

/-- Every paid task is present in the participant's own task map (otherwise
`Participant::calculate` panics on `unwrap`). -/
abbrev PaidTasksPresent (p : Participant) : Prop :=
  ∀ n ∈ p.paid_tasks, (List.lookup n p.tasks).isSome = true

/-- The participant with its cached balance set to `q`. -/
def withSum (p : Participant) (q : ℚ) : Participant := { p with sum := some q }

/-- Closed form of `Participant::calculate` (shared helper). -/
theorem calculate_eq (p : Participant) (h : PaidTasksPresent p) :
    p.calculate =
      some (withSum p ((rustRound (shareSum p - paidSum p - paymentSum p) : ℚ) / 100)) := by
  have h1 : p.tasks.foldl
      (fun acc kt => acc + (kt.2.cost : ℚ) / (kt.2.participants.length : ℚ)) 0 = shareSum p := by
    rw [foldl_add_eq]
    simp [shareSum]
  have h2 : p.paid_tasks.foldlM
      (fun acc n => (List.lookup n p.tasks).map (fun t => acc - (t.cost : ℚ)))
      (shareSum p) = some (shareSum p - paidSum p) := by
    rw [foldlM_option_eq (fun n => List.lookup n p.tasks)
      (fun acc _ t => acc - (t.cost : ℚ)) dummyTask p.paid_tasks (shareSum p) h]
    congr 1
    rw [foldl_sub_eq (fun n => ((((List.lookup n p.tasks).getD dummyTask).cost : ℤ) : ℚ))]
    unfold paidSum
    congr 1
    apply congrArg List.sum
    apply List.map_congr_left
    intro n hn
    obtain ⟨t, ht⟩ := Option.isSome_iff_exists.mp (h n hn)
    simp [paidCost, ht]
  have h3 : p.payments_made.foldl (fun (acc : ℚ) (a : ℤ) => acc - (a : ℚ))
      (shareSum p - paidSum p) = shareSum p - paidSum p - paymentSum p := by
    rw [foldl_sub_eq (fun a : ℤ => (a : ℚ))]
    simp [paymentSum]
  unfold Participant.calculate
  rw [h1]
  simp only [h2, h3]
  rfl

/-- C1: for every participant whose paid tasks all appear in their task map,
the computed balance equals the sum over each task t in the participated-task
set of t's cost divided by t's number of participants, minus the costs of the
paid tasks, minus the payments made, rounded to the nearest minor unit and
then divided by 100 to express it in major units. -/
theorem calculate_balance_formula (p : Participant) (h : PaidTasksPresent p) :
    p.calculate =
      some (withSum p ((rustRound (shareSum p - paidSum p - paymentSum p) : ℚ) / 100)) :=
  calculate_eq p h

/-- Concrete participant for the C1 witness. -/
def pW : Participant :=
  { name := "A"
  , tasks := [("T", { name := "T", owner := "A", participants := ["A", "B"], cost := 300 })]
  , paid_tasks := ["T"]
  , payments_made := [100]
  , sum := none }

/-- Witness for C1: the hypothesis holds for `pW` and the theorem applies. -/
theorem calculate_balance_formula_witness :
    PaidTasksPresent pW ∧
      pW.calculate =
        some (withSum pW ((rustRound (shareSum pW - paidSum pW - paymentSum pW) : ℚ) / 100)) :=
  ⟨by decide, calculate_balance_formula pW (by decide)⟩

/-! ### Direct payments (claim C2) -/

/-- Store holding two fresh participants X and Y. -/
def sXY : Payment :=
  { participants := [("X", Participant.new "X"), ("Y", Participant.new "Y")], tasks := [] }

/-- C2 counterexample: with X and Y both present and the valid amount `5.0`,
the call `payment X Y 5.0` does not append `+a` to X and `−a` to Y as the
claim states: the second token is parsed as the amount, the call fails, and
the store — including Y's `payments_made` — is unchanged. -/
theorem payment_payee_counterexample :
    Payment.payment sXY ["X", "Y", "5.0"] =
      (sXY, Except.error "Y not a valid decimal number for the price") := by
  rfl

/-- The participant with amount `m` pushed onto `payments_made`. -/
def pushPayment (part : Participant) (m : ℤ) : Participant :=
  { part with payments_made := part.payments_made ++ [m] }

/-- The store after `payment` succeeds for `payer`. -/
def payRecorded (s : Payment) (payer : String) (part : Participant) (m : ℤ) : Payment :=
  { s with participants := insertMap payer (pushPayment part m) s.participants }

/-- C2 amended: `payment` takes only a payer and an amount (there is no
payee).  With an existing payer and an amount token parsing as the decimal
`q`, it appends `+trunc (100·q)` to the payer's `payments_made` and changes
nothing else, so the payer's payment total — subtracted in the pre-rounding
balance — grows by exactly that amount. -/
theorem payment_appends_to_payer (s : Payment) (payer amt : String) (part : Participant)
    (q : ℚ) (h0 : payer ≠ "") (h1 : List.lookup payer s.participants = some part)
    (h2 : amt ≠ "") (h3 : parseDecimal amt = some q) :
    Payment.payment s [payer, amt] = (payRecorded s payer part (truncQ (q * 100)), .ok ()) ∧
      paymentSum (pushPayment part (truncQ (q * 100))) =
        paymentSum part + (truncQ (q * 100) : ℚ) := by
  constructor
  · unfold Payment.payment Payment.verify_part verify_partM Payment.verify_amount
    simp only [List.getElem?_cons_zero, List.getElem?_cons_succ]
    rw [if_neg h0, h1, if_neg h2, h3]
    rfl
  · unfold paymentSum pushPayment
    simp

/-- Witness for C2 (amended): concrete instantiation at `sXY`. -/
theorem payment_appends_to_payer_witness :
    ("X" ≠ "" ∧ List.lookup "X" sXY.participants = some (Participant.new "X") ∧
      "5.0" ≠ "" ∧ parseDecimal "5.0" = some 5) ∧
      (Payment.payment sXY ["X", "5.0"] =
          (payRecorded sXY "X" (Participant.new "X") (truncQ ((5 : ℚ) * 100)), .ok ()) ∧
        paymentSum (pushPayment (Participant.new "X") (truncQ ((5 : ℚ) * 100))) =
          paymentSum (Participant.new "X") + (truncQ ((5 : ℚ) * 100) : ℚ)) :=
  ⟨⟨by decide, by decide, by decide, by decide⟩,
    payment_appends_to_payer sXY "X" "5.0" (Participant.new "X") 5
      (by decide) (by decide) (by decide) (by decide)⟩

/-! ### Task shares after a later association (claim C3) -/

/-- `ratFloor` agrees with the mathematical floor on `ℚ`. -/
theorem ratFloor_eq_floor (q : ℚ) : ratFloor q = ⌊q⌋ := by
  rw [Rat.floor_def]
  exact Int.fdiv_eq_ediv q.num (Int.natCast_nonneg q.den)

/-- `rustRound` is the identity on integers. -/
theorem rustRound_intCast (n : ℤ) : rustRound ((n : ℚ)) = n := by
  unfold rustRound
  rcases le_or_lt 0 ((n : ℚ)) with h | h
  · rw [if_pos h, ratFloor_eq_floor]
    rw [Int.floor_int_add]
    norm_num
  · rw [if_neg (not_le.mpr h), ratFloor_eq_floor]
    rw [show (-(n : ℚ) + 1/2) = ((-n : ℤ) : ℚ) + 1/2 by push_cast; ring]
    rw [Int.floor_int_add]
    norm_num

/-- The central task for the C3 scenario: cost 300, shared by O and P. -/
def taskT : Task := { name := "T", owner := "O", participants := ["O", "P"], cost := 300 }

/-- Owner O of `taskT`. -/
def pO : Participant :=
  { name := "O", tasks := [("T", taskT)], paid_tasks := ["T"], payments_made := [], sum := none }

/-- Participant P, already associated with `taskT` (snapshot of two members). -/
def pP : Participant :=
  { name := "P", tasks := [("T", taskT)], paid_tasks := [], payments_made := [], sum := none }

/-- Store for the C3 scenario: O, P and a not-yet-associated Q. -/
def s3 : Payment :=
  { participants := [("O", pO), ("P", pP), ("Q", Participant.new "Q")]
  , tasks := [("T", taskT)] }

/-- C3 counterexample: after `part T Q` enlarges the central task to three
participants, P's stored record is unchanged, and P's next computed balance
divides by the snapshot count 2 (giving 3/2), not by the live count 3 (which
would give 1). -/
theorem part_stale_share_counterexample :
    List.lookup "P" ((Payment.part s3 ["T", "Q"]).1).participants = some pP ∧
      List.lookup "T" ((Payment.part s3 ["T", "Q"]).1).tasks =
        some { taskT with participants := ["O", "P", "Q"] } ∧
      pP.calculate = some (withSum pP (3/2)) ∧ ((3/2 : ℚ) ≠ 1) := by
  refine ⟨by rfl, by rfl, ?_, by norm_num⟩
  rw [calculate_eq pP (by decide)]
  have hval : shareSum pP - paidSum pP - paymentSum pP = ((150 : ℤ) : ℚ) := by
    simp [shareSum, paidSum, paymentSum, pP, taskT]
    norm_num
  rw [hval, rustRound_intCast]
  norm_num [withSum]

/-- The loop of `part` never touches a participant whose name is not in the
argument list. -/
theorem partLoop_lookup_ne (pn : String) :
    ∀ (args : List String) (parts : List (String × Participant)) (t : Task)
      (res : PaymentResult), pn ∉ args →
      List.lookup pn (partLoop parts t args res).1 = List.lookup pn parts := by
  intro args
  induction args with
  | nil => intro parts t res _; rfl
  | cons a rest ih =>
    intro parts t res hmem
    have hpa : pn ≠ a := fun hh => hmem (hh ▸ List.mem_cons_self a rest)
    have hrest : pn ∉ rest := fun hh => hmem (List.mem_cons_of_mem a hh)
    unfold partLoop
    cases hv : verify_partM parts (some a) with
    | error e => exact ih parts t _ hrest
    | ok pr =>
      rcases pr with ⟨n, part⟩
      have hred : verify_partM parts (some a) =
          (if a = "" then Except.error "Not enough arguments"
            else match List.lookup a parts with
              | none => Except.error ("Participant " ++ a ++ " has not yet been added")
              | some part => Except.ok (a, part)) := rfl
      have hn : n = a := by
        rw [hred] at hv
        by_cases ha : a = ""
        · rw [if_pos ha] at hv
          cases hv
        · rw [if_neg ha] at hv
          cases hl : List.lookup a parts with
          | none => rw [hl] at hv; cases hv
          | some pp =>
            rw [hl] at hv
            cases hv
            rfl
      subst hn
      rw [ih _ _ _ hrest, lookup_insertMap, if_neg hpa]

/-- C3 amended: a later `part` call adding other participants to a task
leaves every participant not named in the call — in particular one already
associated with the task — completely unchanged, so the share of the task in
that participant's next computed balance still uses the participant count
recorded in their own snapshot of the task at association time, not the
enlarged live count. -/
theorem part_preserves_other_participants (s : Payment) (tn : String)
    (others : List String) (pn : String) (h : pn ∉ others) :
    List.lookup pn ((Payment.part s (tn :: others)).1).participants =
        List.lookup pn s.participants ∧
      ((List.lookup pn ((Payment.part s (tn :: others)).1).participants).bind
          Participant.calculate) =
        ((List.lookup pn s.participants).bind Participant.calculate) := by
  have main : List.lookup pn ((Payment.part s (tn :: others)).1).participants =
      List.lookup pn s.participants := by
    unfold Payment.part
    by_cases hlen : (tn :: others).length ≤ 1
    · rw [if_pos hlen]
    · rw [if_neg hlen]
      by_cases hall : (tn :: others)[0]? = some "all" ∧ (tn :: others)[1]? = some "all"
      · rw [if_pos hall]
      · rw [if_neg hall]
        cases hv : Payment.verify_task s (tn :: others)[0]? with
        | error e => rfl
        | ok pr =>
          rcases pr with ⟨tn', t0⟩
          exact partLoop_lookup_ne pn others s.participants t0 (.ok ()) h
  exact ⟨main, by rw [main]⟩

/-- Witness for C3 (amended): concrete instantiation at `s3`. -/
theorem part_preserves_other_participants_witness :
    ("P" ∉ ["Q"]) ∧
      (List.lookup "P" ((Payment.part s3 ["T", "Q"]).1).participants =
          List.lookup "P" s3.participants ∧
        ((List.lookup "P" ((Payment.part s3 ["T", "Q"]).1).participants).bind
            Participant.calculate) =
          ((List.lookup "P" s3.participants).bind Participant.calculate)) :=
  ⟨by decide, part_preserves_other_participants s3 "T" ["Q"] "P" (by decide)⟩

/-! ### Loading a corrupt snapshot (claim C4) -/

/-- Transport participant P referencing task "T". -/
def badPart : TransportParticipant :=
  { name := "P", tasks := ["T"], paid_tasks := [], payments_made := none }

/-- A snapshot whose flat form violates the data model: participant P lists
task "T", but the snapshot's task collection is empty. -/
def badDoc : TransportPayment := { participants := [("P", badPart)], tasks := [] }

/-- File system on which file "f" opens and parses to `badDoc`. -/
def fsBad : Fs := { read := fun _ => some (some badDoc), write := fun _ => false }

/-- C4 evaluated at the failing input: rebuilding a store from `badDoc`
panics — `ret.tasks.get (task).unwrap ()` fails — rather than returning an
error, and so does the whole `load` command reading such a file. -/
theorem load_missing_task_panics :
    Payment.fromTransport badDoc = none ∧
      Payment.load Payment.new fsBad ["f"] = none :=
  ⟨rfl, rfl⟩

/-! ### add with a conflicting name (claim C5) -/

/-- Store holding participant X with one recorded payment. -/
def sX : Payment :=
  { participants :=
      [("X", { name := "X", tasks := [], paid_tasks := [], payments_made := [100], sum := none })]
  , tasks := [] }

/-- C5 evaluated at the failing input: `add X` on a store already holding X
reports the name conflict but still overwrites X with a fresh empty
participant, erasing its payment history — although `verify_name`'s own
comment says an existing participant must not be overwritten. -/
theorem add_overwrites_on_conflict :
    Payment.add sX ["X"] =
      ({ participants := [("X", Participant.new "X")], tasks := [] },
        Except.error "A participant named X exists") :=
  rfl

/-! ### Reserved names reachable (claim C6) -/

/-- Trivial file system: no file opens, no file is writable. -/
def fs0 : Fs := { read := fun _ => none, write := fun _ => false }

/-- The store produced by `add all` from the empty store. -/
def sAll : Payment := { participants := [("all", Participant.new "all")], tasks := [] }

/-- C6 evaluated at the failing input: from the empty store, the single
command `add all` produces a store whose participant map contains the
reserved token "all" (the command also reports the invalid name), violating
the reachable-store invariant. -/
theorem add_reserved_name_reachable :
    Payment.command Payment.new fs0 "add all " =
        some (sAll, Except.error "invalid name all") ∧
      (List.lookup "all" sAll.participants).isSome = true :=
  ⟨rfl, rfl⟩

/-! ### Tokenization and dispatch (claims C8, C9) -/

theorem splitWSAux_ne_nil :
    ∀ (cs : List Char) (mode : Option (List Char)), splitWSAux cs mode ≠ [] := by
  intro cs
  induction cs with
  | nil => intro mode; cases mode <;> simp [splitWSAux]
  | cons c rest ih =>
    intro mode
    cases mode with
    | some acc =>
      by_cases h : c.isWhitespace
      · simp [splitWSAux, h]
      · simpa [splitWSAux, h] using ih (some (acc ++ [c]))
    | none =>
      by_cases h : c.isWhitespace
      · simpa [splitWSAux, h] using ih none
      · simpa [splitWSAux, h] using ih (some [c])

theorem splitWSAux_length_ge_two :
    ∀ (cs : List Char), (∃ c ∈ cs, c.isWhitespace = true) →
      ∀ acc, 2 ≤ (splitWSAux cs (some acc)).length := by
  intro cs
  induction cs with
  | nil =>
    rintro ⟨c, hc, _⟩
    cases hc
  | cons c rest ih =>
    rintro ⟨d, hd, hws⟩ acc
    by_cases h : c.isWhitespace = true
    · have h1 : splitWSAux (c :: rest) (some acc) = String.mk acc :: splitWSAux rest none := by
        simp [splitWSAux, h]
      have h2 : 0 < (splitWSAux rest none).length :=
        List.length_pos.mpr (splitWSAux_ne_nil rest none)
      rw [h1]
      simp only [List.length_cons]
      omega
    · have hd' : d ∈ rest := by
        cases hd with
        | head => exact absurd hws h
        | tail _ hh => exact hh
      have h1 : splitWSAux (c :: rest) (some acc) = splitWSAux rest (some (acc ++ [c])) := by
        simp [splitWSAux, h]
      rw [h1]
      exact ih ⟨d, hd', hws⟩ _

theorem getLast?_cons_of_ne_nil {α : Type} (a : α) (l : List α) (h : l ≠ []) :
    (a :: l).getLast? = l.getLast? := by
  obtain ⟨y, ys, rfl⟩ := List.exists_cons_of_ne_nil h
  rw [List.getLast?_cons_cons]

theorem splitWSAux_trailing :
    ∀ (cs : List Char) (mode : Option (List Char)) (d : Char), cs.getLast? = some d →
      d.isWhitespace = true → (splitWSAux cs mode).getLast? = some "" := by
  intro cs
  induction cs with
  | nil =>
    intro mode d hd
    cases hd
  | cons c rest ih =>
    intro mode d hd hws
    cases rest with
    | nil =>
      have hdc : d = c := by
        simp [List.getLast?] at hd
        exact hd.symm
      subst hdc
      cases mode with
      | some acc => simp [splitWSAux, hws]
      | none => simp [splitWSAux, hws]
    | cons e rest' =>
      have hd' : (e :: rest').getLast? = some d := by
        rw [List.getLast?_cons_cons] at hd
        exact hd
      by_cases h : c.isWhitespace = true
      · cases mode with
        | some acc =>
          have h1 : splitWSAux (c :: e :: rest') (some acc) =
              String.mk acc :: splitWSAux (e :: rest') none := by
            simp [splitWSAux, h]
          rw [h1, getLast?_cons_of_ne_nil _ _ (splitWSAux_ne_nil (e :: rest') none)]
          exact ih none d hd' hws
        | none =>
          have h1 : splitWSAux (c :: e :: rest') none = splitWSAux (e :: rest') none := by
            simp [splitWSAux, h]
          rw [h1]
          exact ih none d hd' hws
      · cases mode with
        | some acc =>
          have h1 : splitWSAux (c :: e :: rest') (some acc) =
              splitWSAux (e :: rest') (some (acc ++ [c])) := by
            simp [splitWSAux, h]
          rw [h1]
          exact ih _ d hd' hws
        | none =>
          have h1 : splitWSAux (c :: e :: rest') none = splitWSAux (e :: rest') (some [c]) := by
            simp [splitWSAux, h]
          rw [h1]
          exact ih _ d hd' hws

/-- Every participant in the store satisfies the `calculate` safety condition
(paid tasks present in the own task map). -/
abbrev CalcSafe (p : Payment) : Prop :=
  ∀ np ∈ p.participants, PaidTasksPresent np.2

/-- Every document the file system can deliver survives the transport
conversion (no missing task references). -/
def FsWF (fs : Fs) : Prop :=
  ∀ f tp, fs.read f = some (some tp) → (Payment.fromTransport tp).isSome = true

theorem calculate_isSome (p : Participant) (h : PaidTasksPresent p) :
    p.calculate.isSome = true := by
  rw [calculate_eq p h]
  rfl

theorem calculateAll_isSome (p : Payment) (h : CalcSafe p) :
    (Payment.calculateAll p).isSome = true := by
  unfold Payment.calculateAll
  have hm : (List.mapM (fun (np : String × Participant) =>
      (np.2.calculate).map (fun q => (np.1, q))) p.participants).isSome = true := by
    apply mapM_isSome
    intro np hnp
    have := calculate_isSome np.2 (h np hnp)
    obtain ⟨q, hq⟩ := Option.isSome_iff_exists.mp this
    rw [hq]
    rfl
  obtain ⟨l, hl⟩ := Option.isSome_iff_exists.mp hm
  rw [hl]
  rfl

theorem load_isSome (p : Payment) (fs : Fs) (args : List String) (h3 : FsWF fs) :
    (Payment.load p fs args).isSome = true := by
  unfold Payment.load
  cases hf : args[0]? with
  | none => rfl
  | some f =>
    cases hr : fs.read f with
    | none => simp [hr]
    | some o =>
      cases o with
      | none => simp [hr]
      | some tp =>
        obtain ⟨q, hq⟩ := Option.isSome_iff_exists.mp (h3 f tp hr)
        simp [hr, hq]

theorem dispatch_isSome (p : Payment) (fs : Fs) (verb : String) (args : List String)
    (h2 : CalcSafe p) (h3 : FsWF fs) : (Payment.dispatch p fs verb args).isSome = true := by
  unfold Payment.dispatch
  by_cases e1 : verb = "add"
  · simp [e1]
  rw [if_neg e1]
  by_cases e2 : verb = "part"
  · simp [e2]
  rw [if_neg e2]
  by_cases e3 : verb = "payment"
  · simp [e3]
  rw [if_neg e3]
  by_cases e4 : verb = "print"
  · rw [if_pos e4]
    have := calculateAll_isSome p h2
    obtain ⟨q, hq⟩ := Option.isSome_iff_exists.mp this
    rw [show Payment.print p args = Payment.calculateAll p from rfl, hq]
    rfl
  rw [if_neg e4]
  by_cases e5 : verb = "save"
  · simp [e5]
  rw [if_neg e5]
  by_cases e6 : verb = "load"
  · rw [if_pos e6]
    exact load_isSome p fs args h3
  rw [if_neg e6]
  rfl

/-- The tokenize-then-dispatch factorization of `command`, for inputs that
split into at least two fields. -/
theorem command_eq_dispatch (p : Payment) (fs : Fs) (com : String)
    (h : 2 ≤ (splitWS com).length) :
    Payment.command p fs com =
      Payment.dispatch p fs ((splitWS com).headD "") (((splitWS com).drop 1).dropLast) := by
  unfold Payment.command
  rw [if_neg (by omega)]
  obtain ⟨v, rest, hv⟩ := List.exists_cons_of_ne_nil
    (show splitWS com ≠ [] by
      intro hh
      rw [hh] at h
      simp at h)
  rw [hv]
  simp only [List.getElem?_cons_zero, List.headD_cons]

/-- C8 amended: for every input string whose final character is whitespace
(as every line read from stdin is), on a store whose participants satisfy
the paid-task condition and a file system delivering only convertible
documents, the command processor returns a result and does not panic; the
input is split into whitespace-delimited fields, the first field is the verb,
the arguments are the fields between the verb and the final field, and the
final, dropped field is the empty trailing token — so no non-empty argument
token is lost.  (A whitespace-free input instead panics on the argument
slice, and the token after the last interior whitespace is dropped.) -/
theorem command_no_panic (p : Payment) (fs : Fs) (com : String) (c : Char)
    (h1 : com.data.getLast? = some c) (hc : c.isWhitespace = true)
    (h2 : CalcSafe p) (h3 : FsWF fs) :
    (Payment.command p fs com).isSome = true ∧
      Payment.command p fs com =
        Payment.dispatch p fs ((splitWS com).headD "") (((splitWS com).drop 1).dropLast) ∧
      (splitWS com).getLast? = some "" := by
  have hmem : c ∈ com.data := List.mem_of_mem_getLast? h1
  have hlen : 2 ≤ (splitWS com).length :=
    splitWSAux_length_ge_two com.data ⟨c, hmem, hc⟩ []
  have hcmd := command_eq_dispatch p fs com hlen
  refine ⟨?_, hcmd, splitWSAux_trailing com.data (some []) c h1 hc⟩
  rw [hcmd]
  exact dispatch_isSome p fs _ _ h2 h3

/-- Witness for C8 (amended): the command `print ` followed by a newline on
the empty store. -/
theorem command_no_panic_witness :
    ("print \n".data.getLast? = some '\n' ∧ Char.isWhitespace '\n' = true ∧
        CalcSafe Payment.new ∧ FsWF fs0) ∧
      ((Payment.command Payment.new fs0 "print \n").isSome = true ∧
        Payment.command Payment.new fs0 "print \n" =
          Payment.dispatch Payment.new fs0 ((splitWS "print \n").headD "")
            (((splitWS "print \n").drop 1).dropLast) ∧
        (splitWS "print \n").getLast? = some "") :=
  ⟨⟨rfl, rfl, by decide, fun _ _ h => nomatch h⟩,
    command_no_panic Payment.new fs0 "print \n" '\n' rfl rfl (by decide)
      (fun _ _ h => nomatch h)⟩

/-- C8 counterexample: on the whitespace-free input `add`, the argument
slice `parts[1..parts.len () - 1]` has bounds `1..0` and the processor
panics — it does not return a success-or-error result. -/
theorem command_no_whitespace_panics :
    Payment.command Payment.new fs0 "add" = none :=
  rfl

/-- C9 counterexample: `pay` is one of the nine verbs of the claim, but its
dispatch arm is commented out in the source, so the command fails with the
unknown-command error. -/
theorem command_pay_unrecognized :
    Payment.command Payment.new fs0 "pay A T 5 " =
      some (Payment.new, Except.error "pay is not recognized as a command") :=
  rfl

/-- C9 amended: for every input splitting into at least two fields, the
dispatcher accepts exactly the six verbs add, part, payment, print, save and
load, routing each to the corresponding operation, and every other first
token — including pay, rename and remove — fails with the unknown-command
error. -/
theorem command_dispatch_verbs (p : Payment) (fs : Fs) (com : String)
    (h : 2 ≤ (splitWS com).length) :
    Payment.command p fs com =
      (if (splitWS com).headD "" ∈ (["add", "part", "payment", "print", "save", "load"] : List String)
        then Payment.dispatch p fs ((splitWS com).headD "") (((splitWS com).drop 1).dropLast)
        else some (p, Except.error (((splitWS com).headD "") ++ " is not recognized as a command"))) := by
  rw [command_eq_dispatch p fs com h]
  by_cases hm : (splitWS com).headD "" ∈ (["add", "part", "payment", "print", "save", "load"] : List String)
  · rw [if_pos hm]
  · rw [if_neg hm]
    have m1 : (splitWS com).headD "" ≠ "add" := fun hh => hm (by rw [hh]; decide)
    have m2 : (splitWS com).headD "" ≠ "part" := fun hh => hm (by rw [hh]; decide)
    have m3 : (splitWS com).headD "" ≠ "payment" := fun hh => hm (by rw [hh]; decide)
    have m4 : (splitWS com).headD "" ≠ "print" := fun hh => hm (by rw [hh]; decide)
    have m5 : (splitWS com).headD "" ≠ "save" := fun hh => hm (by rw [hh]; decide)
    have m6 : (splitWS com).headD "" ≠ "load" := fun hh => hm (by rw [hh]; decide)
    unfold Payment.dispatch
    rw [if_neg m1, if_neg m2, if_neg m3, if_neg m4, if_neg m5, if_neg m6]

/-- Witness for C9 (amended): the input `pay A T 5 ` takes the unknown-verb
branch. -/
theorem command_dispatch_verbs_witness :
    (2 ≤ (splitWS "pay A T 5 ").length) ∧
      Payment.command Payment.new fs0 "pay A T 5 " =
        (if (splitWS "pay A T 5 ").headD "" ∈
            (["add", "part", "payment", "print", "save", "load"] : List String)
          then Payment.dispatch Payment.new fs0 ((splitWS "pay A T 5 ").headD "")
            (((splitWS "pay A T 5 ").drop 1).dropLast)
          else some (Payment.new,
            Except.error (((splitWS "pay A T 5 ").headD "") ++ " is not recognized as a command"))) :=
  ⟨by decide, command_dispatch_verbs Payment.new fs0 "pay A T 5 " (by decide)⟩

/-! ### Optional payments field (claim C10) -/

/-- C10: a transport participant whose `payments_made` field is absent is
reconstructed by the load-side conversion with an empty payments list, while
the save-side conversion always emits the field (the value is always
`some`). -/
theorem payments_made_field_optional (tp : TransportParticipant) (part : Participant)
    (h : tp.payments_made = none) :
    (Participant.fromTransport tp).payments_made = [] ∧
      (Participant.toTransport part).payments_made = some part.payments_made := by
  constructor
  · unfold Participant.fromTransport
    rw [h]
  · rfl

/-- Transport participant with the `payments_made` field absent. -/
def tpNoPay : TransportParticipant :=
  { name := "Z", tasks := [], paid_tasks := [], payments_made := none }

/-- Witness for C10: concrete instantiation at `tpNoPay` and `pW`. -/
theorem payments_made_field_optional_witness :
    (tpNoPay.payments_made = none) ∧
      ((Participant.fromTransport tpNoPay).payments_made = [] ∧
        (Participant.toTransport pW).payments_made = some pW.payments_made) :=
  ⟨rfl, payments_made_field_optional tpNoPay pW rfl⟩

/-! ### Save/load round trip (claim C7) -/

/-- Placeholder participant for `Option.getD`; never reached under the
hypotheses of the theorems below. -/
def dummyPart : Participant := Participant.new ""

/-- Agreement of two participants in the sense of the round-trip claim: the
same name, the same task associations (by name), the same paid-task set and
the same payment list. -/
def ParticipantAgrees (p p' : Participant) : Prop :=
  p'.name = p.name ∧
    (∀ t, (List.lookup t p.tasks).isSome = (List.lookup t p'.tasks).isSome) ∧
    (∀ t, t ∈ p.paid_tasks ↔ t ∈ p'.paid_tasks) ∧
    p'.payments_made = p.payments_made

/-- Agreement of two tasks: same name, owner and cost, and the same
participant set. -/
def TaskAgrees (t t' : Task) : Prop :=
  t'.name = t.name ∧ t'.owner = t.owner ∧ t'.cost = t.cost ∧
    (∀ x, x ∈ t.participants ↔ x ∈ t'.participants)

/-- Lift a relation to optional values: both absent, or both present and
related. -/
def OptAgrees {α : Type} (R : α → α → Prop) : Option α → Option α → Prop
  | none, none => True
  | some a, some b => R a b
  | _, _ => False

/-- Store equality in the sense of the claim: the same participants with the
same task associations, paid sets and payment lists, and the same tasks with
the same owners, participant sets and costs. -/
def StoreAgrees (s s' : Payment) : Prop :=
  (∀ n, OptAgrees ParticipantAgrees
      (List.lookup n s.participants) (List.lookup n s'.participants)) ∧
    (∀ n, OptAgrees TaskAgrees (List.lookup n s.tasks) (List.lookup n s'.tasks))

/-- The round trip succeeds (no panic) and rebuilds a store agreeing with
the original. -/
def roundTripAgrees (s : Payment) : Prop :=
  match Payment.fromTransport (Payment.toTransport s) with
  | none => False
  | some s' => StoreAgrees s s'

/-- The §3 data-model invariants of the spec, together with the intrinsic
key-uniqueness of `HashMap` keys and duplicate-freeness of `HashSet`
contents: unique names across the combined namespace; the owner belongs to
the task's participants; paid tasks exist and are owned by the payer;
participated tasks exist and list the participant; costs are non-negative;
the reserved tokens name nothing. -/
abbrev SpecInvariants (s : Payment) : Prop :=
  (s.participants.map Prod.fst).Nodup ∧
    (s.tasks.map Prod.fst).Nodup ∧
    (∀ n ∈ s.participants.map Prod.fst, List.lookup n s.tasks = none) ∧
    (∀ nt ∈ s.tasks,
      nt.2.owner ∈ nt.2.participants ∧ nt.2.participants.Nodup ∧ 0 ≤ nt.2.cost) ∧
    (∀ np ∈ s.participants, (np.2.tasks.map Prod.fst).Nodup ∧ np.2.paid_tasks.Nodup) ∧
    (∀ np ∈ s.participants, ∀ tn ∈ np.2.paid_tasks,
      (List.lookup tn s.tasks).map Task.owner = some np.2.name) ∧
    (∀ np ∈ s.participants, ∀ kt ∈ np.2.tasks,
      (List.lookup kt.1 s.tasks).isSome = true ∧
        np.2.name ∈ ((List.lookup kt.1 s.tasks).getD dummyTask).participants) ∧
    ("all" ∉ s.participants.map Prod.fst ∧ "-a" ∉ s.participants.map Prod.fst ∧
      "all" ∉ s.tasks.map Prod.fst ∧ "-a" ∉ s.tasks.map Prod.fst)

theorem toTransportParticipant_tasks (p : Participant) :
    (Participant.toTransport p).tasks = p.tasks.map Prod.fst := by
  unfold Participant.toTransport
  rw [foldl_push_eq (fun (kt : String × Task) => kt.1)]
  rfl

theorem toTransportParticipant_paid (p : Participant) :
    (Participant.toTransport p).paid_tasks = p.paid_tasks := by
  unfold Participant.toTransport
  rw [foldl_push_eq (fun (x : String) => x)]
  simp

theorem toTransportTask_participants (t : Task) :
    (Task.toTransport t).participants = t.participants := by
  unfold Task.toTransport
  rw [foldl_push_eq (fun (x : String) => x)]
  simp

theorem toTransport_participants (s : Payment) (h : (s.participants.map Prod.fst).Nodup) :
    (Payment.toTransport s).participants =
      s.participants.map (fun np => (np.1, Participant.toTransport np.2)) := by
  unfold Payment.toTransport
  rw [foldl_insertMap_eq (fun (np : String × Participant) => np.1)
    (fun np => Participant.toTransport np.2) s.participants [] h
    (fun x _ => rfl)]
  rfl

theorem toTransport_tasks (s : Payment) (h : (s.tasks.map Prod.fst).Nodup) :
    (Payment.toTransport s).tasks =
      s.tasks.map (fun nt => (nt.1, Task.toTransport nt.2)) := by
  unfold Payment.toTransport
  rw [foldl_insertMap_eq (fun (nt : String × Task) => nt.1)
    (fun nt => Task.toTransport nt.2) s.tasks [] h
    (fun x _ => rfl)]
  rfl

/-- A task after the transport round trip. -/
def rebuiltTask (t : Task) : Task := Task.fromTransport (Task.toTransport t)

/-- The central task map after the transport round trip. -/
def rebuiltTasks (s : Payment) : List (String × Task) :=
  s.tasks.map (fun nt => (nt.1, rebuiltTask nt.2))

/-- The participant with its task map replaced. -/
def withTasks (p : Participant) (ts : List (String × Task)) : Participant :=
  { p with tasks := ts }

/-- A participant after the transport round trip: the transported scalar
fields, with the task map re-attached from the rebuilt central tasks. -/
def rebuiltP (s : Payment) (p : Participant) : Participant :=
  withTasks (Participant.fromTransport (Participant.toTransport p))
    ((p.tasks.map Prod.fst).map
      (fun tn => (tn, (List.lookup tn (rebuiltTasks s)).getD dummyTask)))

/-- The whole store after the transport round trip. -/
def rebuiltStore (s : Payment) : Payment :=
  { participants := s.participants.map (fun np => (np.1, rebuiltP s np.2))
  , tasks := rebuiltTasks s }

theorem fromTransport_tasks_eval (s : Payment) (h2 : (s.tasks.map Prod.fst).Nodup) :
    ((Payment.toTransport s).tasks.foldl
      (fun m nt => insertMap nt.1 (Task.fromTransport nt.2) m) []) = rebuiltTasks s := by
  rw [toTransport_tasks s h2]
  rw [foldl_insertMap_eq (fun (nt : String × TransportTask) => nt.1)
    (fun nt => Task.fromTransport nt.2) _ []
    (by simpa [List.map_map] using h2) (fun x _ => rfl)]
  simp [rebuiltTasks, rebuiltTask, List.map_map]

theorem lookup_rebuiltTasks (s : Payment) (n : String) :
    List.lookup n (rebuiltTasks s) = (List.lookup n s.tasks).map rebuiltTask :=
  lookup_map_value rebuiltTask n s.tasks

theorem rebuildParticipant_eval (s : Payment) (p : Participant)
    (hkeys : (p.tasks.map Prod.fst).Nodup)
    (href : ∀ kt ∈ p.tasks, (List.lookup kt.1 s.tasks).isSome = true) :
    rebuildParticipant (rebuiltTasks s) (Participant.toTransport p) =
      some (rebuiltP s p) := by
  have hall : ∀ tn ∈ p.tasks.map Prod.fst,
      (List.lookup tn (rebuiltTasks s)).isSome = true := by
    intro tn htn
    rw [lookup_rebuiltTasks]
    obtain ⟨kt, hkt, rfl⟩ := List.mem_map.mp htn
    obtain ⟨t, ht⟩ := Option.isSome_iff_exists.mp (href kt hkt)
    rw [ht]
    rfl
  unfold rebuildParticipant
  rw [toTransportParticipant_tasks]
  rw [foldlM_option_eq (fun tn => List.lookup tn (rebuiltTasks s))
    (fun pm tn t => insertMap tn t pm) dummyTask _ [] hall]
  rw [foldl_insertMap_eq (fun (tn : String) => tn)
    (fun tn => (List.lookup tn (rebuiltTasks s)).getD dummyTask) _ []
    (by simpa using hkeys) (fun x _ => rfl)]
  rfl

theorem fromTransport_eval (s : Payment) (h : SpecInvariants s) :
    Payment.fromTransport (Payment.toTransport s) = some (rebuiltStore s) := by
  obtain ⟨h1, h2, _, _, h5, _, h7, _⟩ := h
  have hall : ∀ np ∈ s.participants.map (fun np => (np.1, Participant.toTransport np.2)),
      (rebuildParticipant (rebuiltTasks s) np.2).isSome = true := by
    intro np hnp
    obtain ⟨mp, hmp, rfl⟩ := List.mem_map.mp hnp
    rw [rebuildParticipant_eval s mp.2 (h5 mp hmp).1 (fun kt hkt => (h7 mp hmp kt hkt).1)]
    rfl
  have hmaps : (s.participants.map (fun np => (np.1, Participant.toTransport np.2))).map
      (fun np => (np.1, (rebuildParticipant (rebuiltTasks s) np.2).getD dummyPart)) =
      s.participants.map (fun np => (np.1, rebuiltP s np.2)) := by
    rw [List.map_map]
    apply List.map_congr_left
    intro np hnp
    simp only [Function.comp]
    rw [rebuildParticipant_eval s np.2 (h5 np hnp).1 (fun kt hkt => (h7 np hnp kt hkt).1)]
    rfl
  simp only [Payment.fromTransport]
  rw [fromTransport_tasks_eval s h2, toTransport_participants s h1]
  rw [foldlM_option_eq (fun (np : String × TransportParticipant) =>
      rebuildParticipant (rebuiltTasks s) np.2)
    (fun m np part => insertMap np.1 part m) dummyPart
    (s.participants.map (fun np => (np.1, Participant.toTransport np.2))) [] hall]
  rw [foldl_insertMap_eq (fun (np : String × TransportParticipant) => np.1)
    (fun np => (rebuildParticipant (rebuiltTasks s) np.2).getD dummyPart)
    (s.participants.map (fun np => (np.1, Participant.toTransport np.2))) []
    (by simpa [List.map_map] using h1) (fun x _ => rfl)]
  simp only [List.nil_append, hmaps]
  rfl

theorem taskAgrees_rebuilt (t : Task) : TaskAgrees t (rebuiltTask t) := by
  refine ⟨rfl, rfl, rfl, ?_⟩
  intro x
  show x ∈ t.participants ↔ x ∈ (rebuiltTask t).participants
  have h1 : (rebuiltTask t).participants =
      (Task.toTransport t).participants.foldl (fun st y => insertSet y st) [] := rfl
  rw [h1, toTransportTask_participants, mem_foldl_insertSet]
  simp

theorem lookup_map_self_isSome {β : Type} (g : String → β) (t : String) :
    ∀ names : List String,
      ((List.lookup t (names.map (fun tn => (tn, g tn)))).isSome = true) ↔ t ∈ names := by
  intro names
  induction names with
  | nil => simp [List.lookup]
  | cons a rest ih =>
    simp only [List.map_cons]
    rw [lookup_cons]
    by_cases h : a = t
    · subst h
      simp
    · have h2 : t ≠ a := fun hh => h hh.symm
      rw [if_neg h]
      simp [ih, h2]

theorem participantAgrees_rebuilt (s : Payment) (p : Participant) :
    ParticipantAgrees p (rebuiltP s p) := by
  refine ⟨rfl, ?_, ?_, rfl⟩
  · intro t
    have hR : ((List.lookup t ((p.tasks.map Prod.fst).map
        (fun tn => (tn, (List.lookup tn (rebuiltTasks s)).getD dummyTask)))).isSome = true)
        ↔ t ∈ p.tasks.map Prod.fst :=
      lookup_map_self_isSome _ t _
    have hL : ((List.lookup t p.tasks).isSome = true) ↔ t ∈ p.tasks.map Prod.fst :=
      lookup_isSome_iff t p.tasks
    show (List.lookup t p.tasks).isSome =
      (List.lookup t ((p.tasks.map Prod.fst).map
        (fun tn => (tn, (List.lookup tn (rebuiltTasks s)).getD dummyTask)))).isSome
    by_cases hm : t ∈ p.tasks.map Prod.fst
    · rw [hL.mpr hm, hR.mpr hm]
    · have l1 : (List.lookup t p.tasks).isSome = false := by
        cases hb : (List.lookup t p.tasks).isSome with
        | true => exact absurd (hL.mp hb) hm
        | false => rfl
      have r1 : (List.lookup t ((p.tasks.map Prod.fst).map
          (fun tn => (tn, (List.lookup tn (rebuiltTasks s)).getD dummyTask)))).isSome
          = false := by
        cases hb : (List.lookup t ((p.tasks.map Prod.fst).map
            (fun tn => (tn, (List.lookup tn (rebuiltTasks s)).getD dummyTask)))).isSome with
        | true => exact absurd (hR.mp hb) hm
        | false => rfl
      rw [l1, r1]
  · intro t
    show t ∈ p.paid_tasks ↔ t ∈ (rebuiltP s p).paid_tasks
    have h1 : (rebuiltP s p).paid_tasks =
        (Participant.toTransport p).paid_tasks.foldl (fun st y => insertSet y st) [] := rfl
    rw [h1, toTransportParticipant_paid, mem_foldl_insertSet]
    simp

/-- C7: for every store satisfying the §3 data-model invariants, saving to
the flat transport form and rebuilding from it succeeds and yields a store
equal to the original in the claim's sense: the same participants with the
same task associations, paid-task sets and payment lists, and the same tasks
with the same owners, participant sets and costs. -/
theorem save_load_roundtrip (s : Payment) (h : SpecInvariants s) : roundTripAgrees s := by
  unfold roundTripAgrees
  rw [fromTransport_eval s h]
  show StoreAgrees s (rebuiltStore s)
  constructor
  · intro n
    have hmap : (rebuiltStore s).participants =
        s.participants.map (fun np => (np.1, rebuiltP s np.2)) := rfl
    rw [hmap, lookup_map_value (rebuiltP s) n s.participants]
    cases List.lookup n s.participants with
    | none => exact trivial
    | some p => exact participantAgrees_rebuilt s p
  · intro n
    rw [show (rebuiltStore s).tasks = rebuiltTasks s from rfl, lookup_rebuiltTasks]
    cases List.lookup n s.tasks with
    | none => exact trivial
    | some t => exact taskAgrees_rebuilt t

/-- Task for the C7 witness store. -/
def tW7 : Task := { name := "T", owner := "A", participants := ["A", "B"], cost := 300 }

/-- Concrete store satisfying the §3 invariants for the C7 witness. -/
def sW7 : Payment :=
  { participants :=
      [("A", { name := "A", tasks := [("T", tW7)], paid_tasks := ["T"]
             , payments_made := [5], sum := none }),
       ("B", { name := "B", tasks := [("T", tW7)], paid_tasks := []
             , payments_made := [], sum := none })]
  , tasks := [("T", tW7)] }

/-- Witness for C7: the invariants hold for `sW7` and the theorem applies. -/
theorem save_load_roundtrip_witness : SpecInvariants sW7 ∧ roundTripAgrees sW7 :=
  ⟨by decide, save_load_roundtrip sW7 (by decide)⟩

end Payments

